import Mathlib

/-
  Verification of the teldrive-upload command-line uploader.

  The development shallowly embeds the program's data model and operations:
  pure helpers become Lean functions, the effectful orchestration
  (`uploadFile`, the directory walker, the paginated lister) becomes
  explicit state passing over an environment that records the outcome of
  every external call, and each function returns the trace of HTTP
  requests it issued together with its Go return value.

  Machine integers: every `int64` value manipulated by the claims under
  study (file sizes, part sizes, part counts) is nonnegative and far from
  2^63 in every reachable execution (file sizes come from `Stat()`, part
  sizes from configuration), so they are modelled as `Nat`/`Int` without
  an overflow wrap.  Go's `float64` in the size parser is modelled as an
  exact rational; the multiplications involved are exact in `float64` for
  all inputs exercised by the theorems below.
-/

namespace TeldriveUpload

/-! ### Size parser (`sizeRegex`, `fileSizeToBytes`)

`var sizeRegex = regexp.MustCompile(`+"`"+`(?i)^(\d+(\.\d+)?)\s*([KMGT]B|bytes?)$`+"`"+`)`

`fileSizeToBytes` lowercases its input, matches it against `sizeRegex`,
parses the numeric capture with `strconv.ParseFloat`, and dispatches on
the unit capture. -/

/-- Character-list version of Go `strings.ToLower`, restricted to the
ASCII range (every string the parser accepts is ASCII; `Char.toLower`
agrees with Go there). -/
def lowerChars (cs : List Char) : List Char := cs.map Char.toLower

/-- Model of Go `strings.ToLower` (ASCII range). -/
def goToLower (s : String) : String := ⟨lowerChars s.data⟩

/-- Go regexp `\s` character class: `[\t\n\f\r ]`. -/
def isGoSpace (c : Char) : Bool :=
  c = ' ' || c = '\t' || c = '\n' || c = '\x0c' || c = '\r'

/-- The three captured pieces of a successful `sizeRegex` match:
the integer digits and fractional digits of capture 1 (`\d+(\.\d+)?`)
and the unit substring of capture 3 (`[KMGT]B|bytes?`). -/
structure SizeMatch where
  intDigits : List Char
  fracDigits : List Char
  unit : String
  deriving Repr, DecidableEq

/-- The lowercase spellings of the unit alternation `[KMGT]B|bytes?`. -/
def sizeUnits : List String := ["kb", "mb", "gb", "tb", "byte", "bytes"]

/-- Model of `sizeRegex.FindStringSubmatch`.  The regex is anchored at both
ends; `\d+` takes the maximal leading digit run, the optional `(\.\d+)?`
group fires exactly when a dot followed by at least one digit comes next
(no alternative parse exists: neither `\s*` nor the unit alternation can
match a leading `.` or digit), `\s*` takes the maximal space run (no unit
starts with a space), and the remaining suffix must be one of the unit
alternatives, case-insensitively. -/
def sizeRegexMatch (s : String) : Option SizeMatch :=
  let cs := s.data
  let ds := cs.takeWhile Char.isDigit
  if ds.isEmpty then none else
  let rest1 := cs.drop ds.length
  let numTail : Option (List Char × List Char) :=
    match rest1 with
    | '.' :: r =>
        let fs := r.takeWhile Char.isDigit
        if fs.isEmpty then none else some (fs, r.drop fs.length)
    | _ => some ([], rest1)
  match numTail with
  | none => none
  | some (fracDs, rest2) =>
      let rest3 := rest2.dropWhile isGoSpace
      let unitRaw := String.mk rest3
      if sizeUnits.contains (String.mk (lowerChars rest3)) then
        some ⟨ds, fracDs, unitRaw⟩
      else none

/-- Numeric value of a digit run (digits are ASCII `'0'`–`'9'`). -/
def digitsVal (ds : List Char) : Nat :=
  ds.foldl (fun a c => a * 10 + (c.toNat - 48)) 0

/-- Exact value of the matched decimal numeral, modelling
`strconv.ParseFloat` of capture 1 as a rational (exact for every input
the theorems below evaluate; `ParseFloat` cannot fail on a string of
shape `\d+(\.\d+)?` short of float range overflow). -/
def SizeMatch.value (m : SizeMatch) : Rat :=
  (digitsVal m.intDigits : Rat) +
    (digitsVal m.fracDigits : Rat) / ((10 : Rat) ^ m.fracDigits.length)

/-- The matched numeral scaled to an integer: `value = scaledNum / 10^k`
where `k` is the number of fractional digits. -/
def SizeMatch.scaledNum (m : SizeMatch) : Nat :=
  digitsVal m.intDigits * 10 ^ m.fracDigits.length + digitsVal m.fracDigits

/-- Go's `int64(size * mult)` for the matched numeral `size` and a unit
multiplier `mult`: truncation toward zero of the nonnegative rational
`value * mult`, computed exactly as a `Nat` floor division so the kernel
can evaluate it (`sizeParser_bytesAt_value` below proves the equivalence
with the rational semantics). -/
def SizeMatch.bytesAt (m : SizeMatch) (mult : Nat) : Int :=
  ((m.scaledNum * mult) / 10 ^ m.fracDigits.length : Nat)

/-- The `switch unit` block of `fileSizeToBytes`.  The `kilobyte(s)`,
`megabyte(s)` and `gigabyte(s)` cases of the source are kept even though
`sizeRegexMatch` can never produce them. -/
def unitBytes (m : SizeMatch) : Except String Int :=
  match m.unit with
  | "kb" | "kilobyte" | "kilobytes" => .ok (m.bytesAt 1024)
  | "mb" | "megabyte" | "megabytes" => .ok (m.bytesAt (1024 * 1024))
  | "gb" | "gigabyte" | "gigabytes" => .ok (m.bytesAt (1000 * 1024 * 1024))
  | u => .error ("unsupported unit: " ++ u)

/-- `fileSizeToBytes` from the source: lowercase the input, match
`sizeRegex`, parse the number, dispatch on the unit. -/
def fileSizeToBytes (sizeStr : String) : Except String Int :=
  match sizeRegexMatch (goToLower sizeStr) with
  | none => .error ("invalid format: " ++ sizeStr)
  | some m => unitBytes m

/-! ### Part count (`uploadFile`, `main.go` lines 183–186)

```
numParts := fileSize / u.partSize
if fileSize%u.partSize != 0 {
    numParts++
}
```

Sizes are modelled as `Nat`: `fileSize` comes from `Stat()` and is
nonnegative, `partSize` is positive configuration, and Go `int64`
division on nonnegative operands is `Nat` division. -/

/-- The part count `uploadFile` computes for a file of `fileSize` bytes
split into `partSize`-byte parts. -/
def numParts (fileSize partSize : Nat) : Nat :=
  if fileSize % partSize ≠ 0 then fileSize / partSize + 1
  else fileSize / partSize

/-! ### Upload orchestration (`uploadFile`, `main.go` lines 155–337)

`uploadFile` opens the file, reads 512 bytes for mime sniffing, computes
the session fingerprint and `numParts`, fans the parts out to goroutines
that each `POST /api/uploads/{hash}` and send their decoded 200-response
to the `uploadedParts` channel, drains the channel into `parts`, checks
completeness, sorts by `partNo`, `POST`s the `FilePayload` to
`/api/files` and finally `DELETE`s the session.

The model is a pure function of an environment recording the outcome of
every external interaction; it returns the list of HTTP requests the run
issues together with the Go `error` return. -/

/-- Decoded body of a 200 part-upload response (`UploadPartOut`). -/
structure UploadPartOut where
  id : String
  name : String
  partId : Int
  partNo : Int
  totalParts : Int
  channelId : Int
  size : Int
  deriving Repr, DecidableEq

/-- One entry of the finalize payload's parts list (`Part`). -/
structure Part where
  id : Int
  partNo : Int
  deriving Repr, DecidableEq

/-- The finalize-time record (`FilePayload`). -/
structure FilePayload where
  name : String
  type : String
  parts : List Part
  mimeType : String
  path : String
  size : Nat
  deriving Repr, DecidableEq

/-- An HTTP request issued by `uploadFile`, as visible at the
`rest.Client` boundary. -/
inductive Request where
  | uploadPart (sessionPath fileName : String) (partNo totalparts : Nat)
      (channelId : Int) (start stop : Nat)
  | finalize (payload : FilePayload)
  | deleteSession (sessionPath : String)
  deriving Repr, DecidableEq

/-- Outcomes of the external interactions of one `uploadFile` run. -/
structure UploadEnv where
  /-- `os.Open(filePath)` at the top of `uploadFile` fails. -/
  openFails : Bool
  /-- the initial 512-byte `file.Read` returns an error (for a
  zero-length file it returns `io.EOF`). -/
  readFirstFails : Bool
  /-- `http.DetectContentType` of the sniffed buffer. -/
  mimeType : String
  /-- hex md5 fingerprint of `name:destDir:size` (md5 itself is not
  modelled; only the resulting session path matters to the claims). -/
  hashString : String
  /-- per 0-based part index: the part goroutine's own `os.Open` and
  `Seek` succeed, so its upload request is issued. -/
  partReqIssued : Nat → Bool
  /-- per 0-based part index: outcome of `CallJSON` on the part upload,
  `.error` for a transport error, `.ok (status, decoded body)` else. -/
  partResponse : Nat → Except Unit (Nat × UploadPartOut)
  /-- order in which the coordinator receives the successful parts from
  the `uploadedParts` channel (concurrent completion order). -/
  arrival : List Nat
  /-- the paced finalize `POST /api/files` ultimately succeeds. -/
  finalizeOk : Bool
  /-- the paced `DELETE` of the session ultimately succeeds. -/
  deleteOk : Bool

/-- `uploadURL := "/api/uploads/" + hex md5 fingerprint`. -/
def sessionPath (env : UploadEnv) : String := "/api/uploads/" ++ env.hashString

/-- `partSuccess env i = some out` exactly when part `i`'s goroutine
sent `out` to the channel: its request was issued, `CallJSON` returned
without error, and the status code was 200. -/
def partSuccess (env : UploadEnv) (i : Nat) : Option UploadPartOut :=
  if env.partReqIssued i then
    match env.partResponse i with
    | .error _ => none
    | .ok (status, out) => if status = 200 then some out else none
  else none

/-- Indices of the parts that delivered a result, in part order. -/
def successIdxs (env : UploadEnv) (np : Nat) : List Nat :=
  (List.range np).filter fun i => (partSuccess env i).isSome

/-- Wellformedness of the channel order: the coordinator drains exactly
the successful sends, in some order. -/
def ArrivalOk (env : UploadEnv) (np : Nat) : Prop :=
  env.arrival.Perm (successIdxs env np)

/-- `start := i * partSize`. -/
def partStart (partSize i : Nat) : Nat := i * partSize

/-- `end := start + partSize; if end > fileSize { end = fileSize }`. -/
def partStop (fileSize partSize i : Nat) : Nat :=
  min (i * partSize + partSize) fileSize

/-- Go `fmt.Sprintf("%03d", n)`: decimal, zero-padded to width 3. -/
def pad3 (n : Nat) : String :=
  if n < 10 then "00" ++ toString n
  else if n < 100 then "0" ++ toString n
  else toString n

/-- The synthetic part name: the file's own name for a single-part
upload, else `name.part.NNN` with the 1-based part number. -/
def partName (fileName : String) (np i : Nat) : String :=
  if np > 1 then fileName ++ ".part." ++ pad3 (i + 1) else fileName

/-- The part-upload requests a run issues (one per part whose goroutine
passed its open/seek).  The goroutines issue these concurrently in a
schedule-dependent interleaving; the trace lists them in part order and
the theorems use only membership. -/
def partRequests (env : UploadEnv) (fileName : String) (channelId : Int)
    (fileSize partSize np : Nat) : List Request :=
  (List.range np).filterMap fun i =>
    if env.partReqIssued i then
      some (.uploadPart (sessionPath env) (partName fileName np i) (i + 1) np
        channelId (partStart partSize i) (partStop fileSize partSize i))
    else none

/-- The `parts` slice drained from the `uploadedParts` channel. -/
def collectedParts (env : UploadEnv) : List Part :=
  env.arrival.filterMap fun i =>
    (partSuccess env i).map fun o => { id := o.partId, partNo := o.partNo }

/-- `sort.Slice(parts, ...)` by ascending `partNo`.  The Go sort is
unstable, but every run that passes the completeness check has pairwise
distinct `partNo`s (one per goroutine), on which all sorts agree. -/
def sortParts (l : List Part) : List Part :=
  List.insertionSort (fun a b => a.partNo ≤ b.partNo) l

/-- `uploadFile`: the requests issued and the Go `error` return value. -/
def uploadFile (env : UploadEnv) (fileName destDir : String)
    (channelId : Int) (fileSize partSize : Nat) :
    List Request × Except String Unit :=
  if env.openFails then ([], .error "open failed")
  else if env.readFirstFails then ([], .ok ())
  else
    let np := numParts fileSize partSize
    let reqs := partRequests env fileName channelId fileSize partSize np
    let parts := collectedParts env
    if parts.length ≠ np then (reqs, .error ("upload failed: " ++ fileName))
    else
      let payload : FilePayload :=
        { name := fileName, type := "file", parts := sortParts parts,
          mimeType := env.mimeType, path := destDir, size := fileSize }
      if env.finalizeOk then
        if env.deleteOk then
          (reqs ++ [.finalize payload, .deleteSession (sessionPath env)], .ok ())
        else
          (reqs ++ [.finalize payload, .deleteSession (sessionPath env)],
            .error "session delete failed")
      else (reqs ++ [.finalize payload], .error "finalize failed")

/-- Concrete environment whose initial 512-byte read fails, as happens
for every zero-length file. -/
def envReadFail : UploadEnv :=
  { openFails := false, readFirstFails := true,
    mimeType := "application/octet-stream",
    hashString := "d41d8cd98f00b204e9800998ecf8427e",
    partReqIssued := fun _ => false, partResponse := fun _ => .error (),
    arrival := [], finalizeOk := true, deleteOk := true }

/-- Concrete environment for the upload witnesses: a 3-byte file in
2-byte parts (2 parts), both parts succeeding with status 200 and echoed
part numbers, received from the channel out of order. -/
def envAllOk : UploadEnv :=
  { openFails := false, readFirstFails := false,
    mimeType := "application/octet-stream", hashString := "abc123",
    partReqIssued := fun _ => true,
    partResponse := fun i => .ok (200,
      { id := "p", name := "f.bin", partId := (i : Int) + 10,
        partNo := (i : Int) + 1, totalParts := 2, channelId := 0,
        size := 2 }),
    arrival := [1, 0], finalizeOk := true, deleteOk := true }

/-- Like `envAllOk` but part 1's upload returns status 500, so only one
result is collected. -/
def envOnePartFails : UploadEnv :=
  { openFails := false, readFirstFails := false,
    mimeType := "application/octet-stream", hashString := "abc123",
    partReqIssued := fun _ => true,
    partResponse := fun i =>
      if i = 1 then .ok (500,
        { id := "", name := "", partId := 0, partNo := 0, totalParts := 0,
          channelId := 0, size := 0 })
      else .ok (200,
        { id := "p", name := "f.bin", partId := (i : Int) + 10,
          partNo := (i : Int) + 1, totalParts := 2, channelId := 0,
          size := 2 }),
    arrival := [0], finalizeOk := true, deleteOk := true }

/-- Hypothesis of C3: the backend echoes each uploaded part's 1-based
part number in the decoded `UploadPartOut`. -/
def EchoesPartNo (env : UploadEnv) (np : Nat) : Prop :=
  ∀ i st out, i < np → env.partResponse i = .ok (st, out) →
    out.partNo = (i : Int) + 1

instance : IsTotal Part (fun a b => a.partNo ≤ b.partNo) :=
  ⟨fun a b => Int.le_total a.partNo b.partNo⟩

instance : IsTrans Part (fun a b => a.partNo ≤ b.partNo) :=
  ⟨fun _ _ _ hab hbc => le_trans hab hbc⟩

/-- The finalize payload of the witness run: both parts collected,
sorted ascending by part number. -/
def payloadW : FilePayload :=
  { name := "f.bin", type := "file",
    parts := [{ id := 10, partNo := 1 }, { id := 11, partNo := 2 }],
    mimeType := "application/octet-stream", path := "/d", size := 3 }

/-! ### Retry classification (`retryErrorCodes`, `shouldRetry`,
`main.go` lines 108–122)

`shouldRetry` consults rclone's `fserrors` package, an external
dependency modelled here at its documented interface:
`ContextError(ctx, &err)` overwrites the error with `ctx.Err()` and
reports true when the context is done; `ShouldRetry(err)` holds for
transient (retriable, temporary, timeout-class) errors but never for
`nil` or context errors; `ShouldRetryHTTP(resp, codes)` holds for a
non-nil response whose status is listed. -/

/-- Context state as observed through `ctx.Err()`. -/
inductive CtxState where
  | active
  | canceled
  | deadlineExceeded
  deriving Repr, DecidableEq

/-- A Go error value at the classification boundary: `nil` is
represented by `none`; a non-nil error is a context error or carries its
transience classification. -/
inductive GoErr where
  | canceled
  | deadlineExceeded
  | other (transient : Bool)
  deriving Repr, DecidableEq

/-- `ctx.Err()`. -/
def CtxState.err : CtxState → Option GoErr
  | .active => none
  | .canceled => some .canceled
  | .deadlineExceeded => some .deadlineExceeded

/-- `fserrors.ShouldRetry`: false for `nil` and for context errors,
otherwise the transience classification. -/
def fserrShouldRetry : Option GoErr → Bool
  | none => false
  | some .canceled => false
  | some .deadlineExceeded => false
  | some (.other transient) => transient

/-- The response as far as the classifier looks at it. -/
structure HttpResponse where
  statusCode : Nat
  deriving Repr, DecidableEq

/-- `fserrors.ShouldRetryHTTP(resp, codes)`. -/
def fserrShouldRetryHTTP (resp : Option HttpResponse) (codes : List Nat) : Bool :=
  match resp with
  | none => false
  | some r => codes.contains r.statusCode

/-- `retryErrorCodes` from the source. -/
def retryErrorCodes : List Nat := [429, 500, 502, 503, 504, 509]

/-- `fserrors.ContextError(ctx, &err)`. -/
def contextError (ctx : CtxState) (err : Option GoErr) :
    Bool × Option GoErr :=
  match ctx.err with
  | some ce => (true, some ce)
  | none => (false, err)

/-- `shouldRetry` from the source: a done context is never retryable and
returns the context error; otherwise transient errors and the listed
HTTP statuses are retryable. -/
def shouldRetry (ctx : CtxState) (resp : Option HttpResponse)
    (err : Option GoErr) : Bool × Option GoErr :=
  let ce := contextError ctx err
  if ce.1 then (false, ce.2)
  else (fserrShouldRetry ce.2 || fserrShouldRetryHTTP resp retryErrorCodes, ce.2)

/-! ### Directory walker (`readMetaDataForPath`, `list`,
`checkFileExists`, `uploadFilesInDirectory`, `main.go` lines 364–472)

The walker reads the local entries, fetches the full remote listing of
the destination once, and then for each entry either recurses (after a
`makedir`) or uploads the file unless an identically named remote entry
exists.  `Error.Fatalln` on a failed `makedir` calls `os.Exit(1)`:  the
model tracks process death explicitly. -/

/-- A remote listing entry (`FileInfo`). -/
structure FileInfo where
  id : String
  name : String
  mimeType : String
  size : Int
  parentId : String
  type : String
  modTime : String
  deriving Repr, DecidableEq

/-- A local directory entry as returned by `os.ReadDir`. -/
inductive FsEntry where
  | file (name : String)
  | dir (name : String) (entries : List FsEntry)

/-- What the remote backend and local file system answer during a walk. -/
structure WalkEnv where
  /-- outcome of `readMetaDataForPath` per (path, perPage, nextPageToken):
  `none` is a paced request that ultimately fails, `some (files, next)` a
  decoded page. -/
  pages : String → Nat → String → Option (List FileInfo × String)
  /-- bound on the page-fetch iterations of `list` (the Go loop is
  unbounded; a terminating run corresponds to sufficient fuel). -/
  listFuel : Nat
  /-- `os.ReadDir` succeeds on the local path. -/
  readDirOk : String → Bool
  /-- the paced `POST /api/files/makedir` succeeds on the remote path. -/
  mkdirOk : String → Bool

/-- `readMetaDataForPath` (`GET /api/files` with `op=list`). -/
def readMetaDataForPath (env : WalkEnv) (path : String) (perPage : Nat)
    (nextPageToken : String) : Option (List FileInfo × String) :=
  env.pages path perPage nextPageToken

/-- The page loop of `list`: fetch with `perPage = 500`, append the
page, continue while the next-page token is nonempty. -/
def listLoop (env : WalkEnv) (path : String) :
    Nat → String → List FileInfo → Option (List FileInfo)
  | 0, _, _ => none
  | fuel + 1, tok, acc =>
      match readMetaDataForPath env path 500 tok with
      | none => none
      | some (fs, next) =>
          if next = "" then some (acc ++ fs)
          else listLoop env path fuel next (acc ++ fs)

/-- `list`: the accumulated remote listing of a directory. -/
def list (env : WalkEnv) (path : String) : Option (List FileInfo) :=
  listLoop env path env.listFuel "" []

/-- `checkFileExists`. -/
def checkFileExists (name : String) (files : List FileInfo) : Bool :=
  files.any fun item => item.name = name

/-- Go `strings.ReplaceAll(s, "\\", "/")` as used to normalise remote
paths (the pattern is a single character, so it is a character map). -/
def slashify (s : String) : String :=
  ⟨s.data.map fun c => if c = '\\' then '/' else c⟩

/-- `filepath.Join` on the walked paths (no `.`/`..` cleaning is
modelled; the joined components are names of directory entries). -/
def joinPath (a b : String) : String := a ++ "/" ++ b

/-- Observable step of a walk. -/
inductive WEvent where
  | listCall (path : String)
  | mkdir (path : String)
  | upload (fullPath destDir : String)
  | skipExists (name : String)
  deriving Repr, DecidableEq

/-- Go return value of `uploadFilesInDirectory`, with `Error.Fatalln`'s
`os.Exit(1)` tracked as `exited`. -/
inductive WalkRes where
  | ok
  | err
  | exited
  deriving Repr, DecidableEq

/-- The body of the entry loop for a single entry, with the recursive
walk of a subdirectory abstracted as `recur`.  A file entry is uploaded
unless its name is in the remote listing (an upload failure is only
logged, so the loop continues either way); a directory entry first
creates the remote directory — on failure `Error.Fatalln` kills the
process (`false`) — then recurses, and only a process exit inside the
subtree stops the walk (the recursion's `error` is merely logged). -/
def walkEntry (env : WalkEnv)
    (recur : String → String → List FsEntry → List WEvent × WalkRes)
    (sourcePath destDir : String) (files : List FileInfo) :
    FsEntry → List WEvent × Bool
  | .file name =>
      if checkFileExists name files then ([.skipExists name], true)
      else ([.upload (joinPath sourcePath name) destDir], true)
  | .dir name children =>
      if env.mkdirOk (slashify (joinPath destDir name)) then
        (.mkdir (slashify (joinPath destDir name)) ::
            (recur (joinPath sourcePath name)
              (slashify (joinPath destDir name)) children).1,
          match (recur (joinPath sourcePath name)
              (slashify (joinPath destDir name)) children).2 with
          | .exited => false
          | _ => true)
      else ([.mkdir (slashify (joinPath destDir name))], false)

/-- The entry loop: entries in order; a process exit abandons the
remaining siblings. -/
def walkEntries (env : WalkEnv)
    (recur : String → String → List FsEntry → List WEvent × WalkRes)
    (sourcePath destDir : String) (files : List FileInfo) :
    List FsEntry → List WEvent × Bool
  | [] => ([], true)
  | e :: rest =>
      if (walkEntry env recur sourcePath destDir files e).2 then
        ((walkEntry env recur sourcePath destDir files e).1 ++
            (walkEntries env recur sourcePath destDir files rest).1,
          (walkEntries env recur sourcePath destDir files rest).2)
      else walkEntry env recur sourcePath destDir files e

/-- `uploadFilesInDirectory`: read the local entries, normalise the
destination path, fetch its full remote listing once, then walk the
entries.  The `Nat` bounds the directory-nesting depth the run may
descend (the Go recursion is bounded by the finite tree; any fuel
exceeding the tree depth yields the run's exact behaviour). -/
def uploadFilesInDirectory (env : WalkEnv) :
    Nat → String → String → List FsEntry → List WEvent × WalkRes
  | 0, _, _, _ => ([], .err)
  | fuel + 1, sourcePath, destDir, entries =>
      if env.readDirOk sourcePath then
        match list env (slashify destDir) with
        | none => ([.listCall (slashify destDir)], .err)
        | some files =>
            (.listCall (slashify destDir) ::
                (walkEntries env (uploadFilesInDirectory env fuel)
                  sourcePath (slashify destDir) files entries).1,
              if (walkEntries env (uploadFilesInDirectory env fuel)
                  sourcePath (slashify destDir) files entries).2
              then .ok else .exited)
      else ([], .err)

/-- Environment in which every remote directory creation fails and every
remote listing is empty. -/
def envWalkMkdirFail : WalkEnv :=
  { pages := fun _ _ _ => some ([], ""), listFuel := 8,
    readDirOk := fun _ => true, mkdirOk := fun _ => false }

/-- A remote listing entry named `b.txt`, for the witness below. -/
def fileInfoB : FileInfo :=
  { id := "1", name := "b.txt", mimeType := "text/plain", size := 1,
    parentId := "", type := "file", modTime := "" }

/-- Environment whose remote listing contains only `b.txt` (one page,
empty next-page token). -/
def envWalkExists : WalkEnv :=
  { pages := fun _ _ _ => some ([fileInfoB], ""), listFuel := 4,
    readDirOk := fun _ => true, mkdirOk := fun _ => true }

/-! ### Theorems -/

/-- The integer computation of `SizeMatch.bytesAt` agrees with truncating
the exact rational `value * mult` toward zero (the value is nonnegative,
so truncation is the floor). -/
theorem sizeParser_bytesAt_value (m : SizeMatch) (mult : Nat) :
    m.bytesAt mult = ⌊m.value * mult⌋ := by
  have hval : m.value * mult = ((m.scaledNum * mult : Nat) : Rat) / ((10 ^ m.fracDigits.length : Nat) : Rat) := by
    rw [SizeMatch.value, SizeMatch.scaledNum]
    have h10 : ((10 : Rat) ^ m.fracDigits.length) ≠ 0 := by positivity
    push_cast
    field_simp
  rw [SizeMatch.bytesAt, hval]
  have h := Nat.floor_div_eq_div (α := Rat) (m.scaledNum * mult) (10 ^ m.fracDigits.length)
  have hnonneg : (0 : Rat) ≤ ((m.scaledNum * mult : Nat) : Rat) / ((10 ^ m.fracDigits.length : Nat) : Rat) := by
    positivity
  rw [← h]
  rw [← Int.floor_toNat]
  have := Int.floor_nonneg.mpr hnonneg
  omega

/-- C4: the size parser is deterministic and unit-multiplier exact with
mixed-radix semantics: `"1GB"` parses to `1000*1024*1024 = 1048576000`
bytes (neither `1024^3` nor `1000^3`), `"2KB"` parses to `2048` bytes,
matching is case-insensitive, and on every successfully matched string
the `kb`/`mb` units multiply by `1024` and `1024^2` while `gb`
multiplies by `1000*1024*1024`. -/
theorem fileSizeToBytes_mixed_radix_exact :
    (fileSizeToBytes "1GB" = .ok 1048576000 ∧
     fileSizeToBytes "2KB" = .ok 2048 ∧
     fileSizeToBytes "1gb" = .ok 1048576000 ∧
     fileSizeToBytes "1Gb" = .ok 1048576000 ∧
     fileSizeToBytes "1gB" = .ok 1048576000 ∧
     fileSizeToBytes "2kb" = .ok 2048 ∧
     fileSizeToBytes "2Kb" = .ok 2048 ∧
     fileSizeToBytes "2kB" = .ok 2048) ∧
    (∀ s t, goToLower s = goToLower t →
        (fileSizeToBytes s).toOption = (fileSizeToBytes t).toOption) ∧
    (∀ s i f u, sizeRegexMatch (goToLower s) = some ⟨i, f, u⟩ →
        (u = "kb" →
          fileSizeToBytes s =
            .ok ⌊(⟨i, f, u⟩ : SizeMatch).value * ((1024 : Nat) : Rat)⌋) ∧
        (u = "mb" →
          fileSizeToBytes s =
            .ok ⌊(⟨i, f, u⟩ : SizeMatch).value * ((1024 * 1024 : Nat) : Rat)⌋) ∧
        (u = "gb" →
          fileSizeToBytes s =
            .ok ⌊(⟨i, f, u⟩ : SizeMatch).value * ((1000 * 1024 * 1024 : Nat) : Rat)⌋)) := by
  refine ⟨⟨rfl, rfl, rfl, rfl, rfl, rfl, rfl, rfl⟩, ?_, ?_⟩
  · intro s t hst
    unfold fileSizeToBytes
    rw [hst]
    generalize sizeRegexMatch (goToLower t) = o
    cases o with
    | none => rfl
    | some m => rfl
  · intro s i f u h
    refine ⟨?_, ?_, ?_⟩ <;> intro hunit <;> subst hunit <;>
      · unfold fileSizeToBytes
        rw [h, ← sizeParser_bytesAt_value]
        rfl

/-- Witness for `fileSizeToBytes_mixed_radix_exact` at concrete inputs. -/
theorem fileSizeToBytes_mixed_radix_exact_witness :
    (fileSizeToBytes "7KB").toOption = (fileSizeToBytes "7kB").toOption ∧
    fileSizeToBytes "3MB" =
      .ok ⌊(⟨['3'], [], "mb"⟩ : SizeMatch).value * ((1024 * 1024 : Nat) : Rat)⌋ :=
  ⟨fileSizeToBytes_mixed_radix_exact.2.1 "7KB" "7kB" rfl,
   (fileSizeToBytes_mixed_radix_exact.2.2 "3MB" ['3'] [] "mb" rfl).2.1 rfl⟩

/-- C8: the size parser rejects the `bytes`/`byte` unit even though
`sizeRegex` matches it (`TB` likewise), and the longhand units never
match `sizeRegex` at all, so the switch cases for them are unreachable. -/
theorem fileSizeToBytes_bytes_unit_rejected :
    fileSizeToBytes "100bytes" = .error "unsupported unit: bytes" ∧
    fileSizeToBytes "1byte" = .error "unsupported unit: byte" ∧
    fileSizeToBytes "5TB" = .error "unsupported unit: tb" ∧
    fileSizeToBytes "1kilobyte" = .error "invalid format: 1kilobyte" ∧
    fileSizeToBytes "1megabyte" = .error "invalid format: 1megabyte" ∧
    fileSizeToBytes "1gigabyte" = .error "invalid format: 1gigabyte" :=
  ⟨rfl, rfl, rfl, rfl, rfl, rfl⟩

/-- C1 counterexample: for a zero-length file and the default part size
the computed part count is `0`, not `1` — no "one empty-range part"
exists. -/
theorem numParts_zero_file_not_one :
    numParts 0 1048576000 = 0 ∧ ¬ numParts 0 1048576000 = 1 := by
  constructor <;> simp [numParts]

/-- C1 (amended): for every `fileSize ≥ 0` and `partSize > 0` the part
count equals `⌈fileSize / partSize⌉` (written `(fileSize + partSize - 1)
/ partSize` in `Nat`); in particular a zero-length file yields `0`
parts, not `1`. -/
theorem numParts_eq_ceil (fileSize partSize : Nat) (h : 0 < partSize) :
    numParts fileSize partSize = (fileSize + partSize - 1) / partSize := by
  have hrlt : fileSize % partSize < partSize := Nat.mod_lt _ h
  obtain ⟨q, r, hq, hr⟩ :
      ∃ q r, fileSize = partSize * q + r ∧ r < partSize :=
    ⟨fileSize / partSize, fileSize % partSize,
      by have := Nat.div_add_mod fileSize partSize; omega, hrlt⟩
  subst hq
  have e1 : (partSize * q + r) % partSize = r := by
    rw [Nat.mul_add_mod, Nat.mod_eq_of_lt hr]
  have e2 : (partSize * q + r) / partSize = q := by
    rw [Nat.mul_add_div h, Nat.div_eq_of_lt hr]
    omega
  unfold numParts
  rw [e1, e2]
  by_cases hr0 : r = 0
  · rw [if_neg (not_not_intro hr0)]
    have h1 : partSize * q + r + partSize - 1 = partSize * q + (partSize - 1) := by
      omega
    rw [h1, Nat.mul_add_div h,
      Nat.div_eq_of_lt (show partSize - 1 < partSize by omega)]
    omega
  · rw [if_pos hr0]
    have h1 : partSize * q + r + partSize - 1 = partSize * (q + 1) + (r - 1) := by
      rw [Nat.mul_succ]; omega
    rw [h1, Nat.mul_add_div h,
      Nat.div_eq_of_lt (show r - 1 < partSize by omega)]

/-- Witness for `numParts_eq_ceil`: 5 bytes in parts of 2 give 3 parts. -/
theorem numParts_eq_ceil_witness : numParts 5 2 = (5 + 2 - 1) / 2 :=
  numParts_eq_ceil 5 2 (by decide)

/-- Membership in `partRequests` characterised: exactly the requests of
the parts whose goroutine reached `CallJSON`. -/
theorem mem_partRequests_iff (env : UploadEnv) (fileName : String)
    (channelId : Int) (fileSize partSize np : Nat) (r : Request) :
    r ∈ partRequests env fileName channelId fileSize partSize np ↔
      ∃ i, i < np ∧ env.partReqIssued i = true ∧
        r = .uploadPart (sessionPath env) (partName fileName np i) (i + 1) np
          channelId (partStart partSize i) (partStop fileSize partSize i) := by
  unfold partRequests
  rw [List.mem_filterMap]
  constructor
  · rintro ⟨i, hi, hr⟩
    rw [List.mem_range] at hi
    by_cases hiss : env.partReqIssued i
    · rw [if_pos hiss] at hr
      exact ⟨i, hi, hiss, (Option.some.inj hr).symm⟩
    · rw [if_neg hiss] at hr
      cases hr
  · rintro ⟨i, hi, hiss, rfl⟩
    exact ⟨i, List.mem_range.mpr hi, by rw [if_pos hiss]⟩

/-- C10: when the initial 512-byte read fails (including `io.EOF` on a
zero-length file), `uploadFile` logs the error and returns `nil`, with
no part-upload, finalize or session request ever issued. -/
theorem uploadFile_read_error_swallowed (env : UploadEnv)
    (fileName destDir : String) (channelId : Int) (fileSize partSize : Nat)
    (hopen : env.openFails = false) (hread : env.readFirstFails = true) :
    uploadFile env fileName destDir channelId fileSize partSize =
      ([], .ok ()) := by
  unfold uploadFile
  rw [hopen, hread]
  simp

/-- Witness for `uploadFile_read_error_swallowed`: a zero-length file is
reported as handled (`nil` error) with an empty request trace. -/
theorem uploadFile_read_error_swallowed_witness :
    uploadFile envReadFail "a.bin" "/dest" 0 0 1048576000 = ([], .ok ()) :=
  uploadFile_read_error_swallowed envReadFail "a.bin" "/dest" 0 0 1048576000
    rfl rfl

/-- C2: a run that reaches the collection step with a part-count mismatch
returns `upload failed: <name>` and never issues the finalize `POST
/api/files`; when the counts agree the finalize request is issued. -/
theorem uploadFile_mismatch_means_no_finalize (env : UploadEnv)
    (fileName destDir : String) (channelId : Int) (fileSize partSize : Nat)
    (hopen : env.openFails = false) (hread : env.readFirstFails = false) :
    ((collectedParts env).length ≠ numParts fileSize partSize →
        (uploadFile env fileName destDir channelId fileSize partSize).2 =
            .error ("upload failed: " ++ fileName) ∧
          ∀ p, Request.finalize p ∉
            (uploadFile env fileName destDir channelId fileSize partSize).1) ∧
    ((collectedParts env).length = numParts fileSize partSize →
        ∃ p, Request.finalize p ∈
          (uploadFile env fileName destDir channelId fileSize partSize).1) := by
  unfold uploadFile
  rw [hopen, hread]
  simp only [Bool.false_eq_true, if_false]
  constructor
  · intro hne
    rw [if_pos hne]
    refine ⟨rfl, ?_⟩
    intro p hp
    rcases (mem_partRequests_iff env fileName channelId fileSize partSize
      (numParts fileSize partSize) _).1 hp with ⟨i, _, _, heq⟩
    cases heq
  · intro hlen
    rw [if_neg (fun hne => hne hlen)]
    by_cases hf : env.finalizeOk
    · by_cases hd : env.deleteOk
      · rw [if_pos hf, if_pos hd]
        exact ⟨_, List.mem_append_right _ (List.mem_cons_self _ _)⟩
      · rw [if_pos hf, if_neg hd]
        exact ⟨_, List.mem_append_right _ (List.mem_cons_self _ _)⟩
    · rw [if_neg hf]
      exact ⟨_, List.mem_append_right _ (List.mem_cons_self _ _)⟩

/-- Witness for `uploadFile_mismatch_means_no_finalize`: with one of two
parts failed the run errors with the file's name and issues no finalize
request. -/
theorem uploadFile_mismatch_means_no_finalize_witness :
    (uploadFile envOnePartFails "f.bin" "/d" 0 3 2).2 =
        .error ("upload failed: " ++ "f.bin") ∧
      ∀ p, Request.finalize p ∉ (uploadFile envOnePartFails "f.bin" "/d" 0 3 2).1 :=
  (uploadFile_mismatch_means_no_finalize envOnePartFails "f.bin" "/d" 0 3 2
    rfl rfl).1 (by decide)

/-- C9: every part-upload request a run issues goes to the session path
and carries the 1-based part number as `partNo`, the total part count as
`totalparts`, the configured channel id, the part's byte range, and the
synthetic part name — the original file name when `numParts = 1` and
`name.part.NNN` with the zero-padded 1-based part number otherwise;
conversely each part whose goroutine reaches `CallJSON` issues exactly
that request, and the zero-padding is three digits wide for every part
number below 1000. -/
theorem uploadFile_part_request_shape (env : UploadEnv)
    (fileName destDir : String) (channelId : Int) (fileSize partSize : Nat)
    (hopen : env.openFails = false) (hread : env.readFirstFails = false) :
    (∀ sp nm pno tot cid st en,
        Request.uploadPart sp nm pno tot cid st en ∈
            (uploadFile env fileName destDir channelId fileSize partSize).1 →
          ∃ i, i < numParts fileSize partSize ∧ env.partReqIssued i = true ∧
            sp = sessionPath env ∧ pno = i + 1 ∧
            tot = numParts fileSize partSize ∧ cid = channelId ∧
            st = partStart partSize i ∧ en = partStop fileSize partSize i ∧
            nm = partName fileName (numParts fileSize partSize) i ∧
            (numParts fileSize partSize = 1 → nm = fileName) ∧
            (1 < numParts fileSize partSize →
              nm = fileName ++ ".part." ++ pad3 (i + 1))) ∧
    (∀ i, i < numParts fileSize partSize → env.partReqIssued i = true →
        Request.uploadPart (sessionPath env)
            (partName fileName (numParts fileSize partSize) i) (i + 1)
            (numParts fileSize partSize) channelId (partStart partSize i)
            (partStop fileSize partSize i) ∈
          (uploadFile env fileName destDir channelId fileSize partSize).1) ∧
    (∀ n, n < 1000 → 0 < n → (pad3 n).length = 3) := by
  have hmem : ∀ sp nm pno tot cid st en,
      Request.uploadPart sp nm pno tot cid st en ∈
          (uploadFile env fileName destDir channelId fileSize partSize).1 ↔
        Request.uploadPart sp nm pno tot cid st en ∈
          partRequests env fileName channelId fileSize partSize
            (numParts fileSize partSize) := by
    intro sp nm pno tot cid st en
    unfold uploadFile
    rw [hopen, hread]
    simp only [Bool.false_eq_true, if_false]
    by_cases hne : (collectedParts env).length ≠ numParts fileSize partSize
    · rw [if_pos hne]
    · rw [if_neg hne]
      by_cases hf : env.finalizeOk <;> by_cases hd : env.deleteOk <;>
        simp [hf, hd, List.mem_append]
  refine ⟨?_, ?_, by set_option maxRecDepth 10000 in decide⟩
  · intro sp nm pno tot cid st en h
    rw [hmem] at h
    rcases (mem_partRequests_iff env fileName channelId fileSize partSize
      (numParts fileSize partSize) _).1 h with ⟨i, hi, hiss, heq⟩
    cases heq
    refine ⟨i, hi, hiss, rfl, rfl, rfl, rfl, rfl, rfl, rfl, ?_, ?_⟩
    · intro h1
      unfold partName
      rw [h1]
      simp
    · intro h1
      unfold partName
      rw [if_pos h1]
  · intro i hi hiss
    rw [hmem]
    exact (mem_partRequests_iff env fileName channelId fileSize partSize
      (numParts fileSize partSize) _).2 ⟨i, hi, hiss, rfl⟩

/-- Witness for `uploadFile_part_request_shape`: part 0 of the 2-part
run issues its request with `partNo` 1 and `totalparts` 2. -/
theorem uploadFile_part_request_shape_witness :
    Request.uploadPart (sessionPath envAllOk)
        (partName "f.bin" (numParts 3 2) 0) (0 + 1) (numParts 3 2) 0
        (partStart 2 0) (partStop 3 2 0) ∈
      (uploadFile envAllOk "f.bin" "/d" 0 3 2).1 :=
  (uploadFile_part_request_shape envAllOk "f.bin" "/d" 0 3 2 rfl rfl).2.1 0
    (by decide) rfl

/-- Unfolding of a successful `partSuccess`: the request was issued and
`CallJSON` returned the decoded body with status 200. -/
theorem partSuccess_eq_some {env : UploadEnv} {i : Nat} {o : UploadPartOut}
    (h : partSuccess env i = some o) :
    env.partReqIssued i = true ∧ env.partResponse i = .ok (200, o) := by
  by_cases hiss : env.partReqIssued i
  · refine ⟨hiss, ?_⟩
    cases hresp : env.partResponse i with
    | error e =>
        exfalso
        unfold partSuccess at h
        rw [if_pos hiss, hresp] at h
        exact Option.noConfusion h
    | ok p =>
        obtain ⟨st, out⟩ := p
        unfold partSuccess at h
        rw [if_pos hiss, hresp] at h
        change (if st = 200 then some out else none) = some o at h
        by_cases hst : st = 200
        · subst hst
          rw [if_pos rfl] at h
          cases h
          rfl
        · rw [if_neg hst] at h
          cases h
  · exfalso
    unfold partSuccess at h
    rw [if_neg hiss] at h
    cases h

/-- When every index in `l` delivered a result echoing its part number,
the collected `Part`s carry exactly those part numbers, in order. -/
theorem collected_map_partNo (env : UploadEnv) (l : List Nat)
    (h : ∀ i ∈ l, ∃ o, partSuccess env i = some o ∧ o.partNo = (i : Int) + 1) :
    (l.filterMap fun i => (partSuccess env i).map
        fun o => ({ id := o.partId, partNo := o.partNo } : Part)).map Part.partNo
      = l.map fun i : Nat => (i : Int) + 1 := by
  induction l with
  | nil => rfl
  | cons a l ih =>
      obtain ⟨o, ho, hno⟩ := h a (List.mem_cons_self a l)
      rw [List.filterMap_cons_some (by rw [ho]; rfl), List.map_cons,
        List.map_cons]
      exact congrArg₂ _ hno (ih fun i hi => h i (List.mem_cons_of_mem a hi))

/-- A filter of full length is the whole list. -/
theorem filter_eq_self_of_length {α : Type} (p : α → Bool) (l : List α)
    (h : (l.filter p).length = l.length) : l.filter p = l :=
  List.filter_eq_self.mpr (List.filter_length_eq_length.mp h)

/-- The part numbers of `sortParts l`, as a list, are sorted. -/
theorem sortParts_sorted (l : List Part) :
    List.Sorted (· ≤ ·) ((sortParts l).map Part.partNo) := by
  have h := List.sorted_insertionSort (fun a b => a.partNo ≤ b.partNo) l
  rw [List.Sorted, List.pairwise_map]
  exact h

/-- `sortParts` permutes its input. -/
theorem sortParts_perm (l : List Part) : (sortParts l).Perm l :=
  List.perm_insertionSort _ l

/-- C3: in every run whose channel order is a permutation of the
successful sends, whose responses echo the uploaded part numbers, and
whose collected count matches `numParts`, the parts list of the payload
sent to finalize is exactly `[1, 2, ..., numParts]` in ascending order —
sorted, duplicate-free, and gap-free. -/
theorem uploadFile_finalize_parts_sorted (env : UploadEnv)
    (fileName destDir : String) (channelId : Int) (fileSize partSize : Nat)
    (harr : ArrivalOk env (numParts fileSize partSize))
    (hecho : EchoesPartNo env (numParts fileSize partSize))
    (hlen : (collectedParts env).length = numParts fileSize partSize) :
    ∀ payload, Request.finalize payload ∈
        (uploadFile env fileName destDir channelId fileSize partSize).1 →
      payload.parts.map Part.partNo =
          (List.range (numParts fileSize partSize)).map (fun i : Nat => (i : Int) + 1) ∧
      List.Sorted (· ≤ ·) (payload.parts.map Part.partNo) ∧
      (payload.parts.map Part.partNo).Nodup ∧
      ∀ k : Int, 1 ≤ k → k ≤ (numParts fileSize partSize : Int) →
        k ∈ payload.parts.map Part.partNo := by
  set np := numParts fileSize partSize with hnp
  -- every arrived index delivered a result echoing its part number
  have harrmem : ∀ i ∈ env.arrival,
      ∃ o, partSuccess env i = some o ∧ o.partNo = (i : Int) + 1 := by
    intro i hi
    have hiS : i ∈ successIdxs env np := harr.mem_iff.mp hi
    unfold successIdxs at hiS
    rw [List.mem_filter, List.mem_range] at hiS
    obtain ⟨hilt, hsome⟩ := hiS
    obtain ⟨o, ho⟩ := Option.isSome_iff_exists.mp hsome
    obtain ⟨-, hresp⟩ := partSuccess_eq_some ho
    exact ⟨o, ho, hecho i 200 o hilt hresp⟩
  have hmap : (collectedParts env).map Part.partNo =
      env.arrival.map fun i : Nat => (i : Int) + 1 :=
    collected_map_partNo env env.arrival harrmem
  -- counts force every part to have succeeded
  have hlarr : env.arrival.length = np := by
    have := congrArg List.length hmap
    simp only [List.length_map] at this
    omega
  have hS : successIdxs env np = List.range np := by
    apply filter_eq_self_of_length
    have h1 : (successIdxs env np).length = np := by
      have := harr.length_eq
      omega
    unfold successIdxs at h1
    rw [h1, List.length_range]
  have harr2 : env.arrival.Perm (List.range np) := by
    rw [← hS]
    exact harr
  -- the multiset of collected part numbers is 1..np
  have hperm : ((collectedParts env).map Part.partNo).Perm
      ((List.range np).map fun i : Nat => (i : Int) + 1) := by
    rw [hmap]
    exact harr2.map _
  -- and the final sorted list is 1..np on the nose
  have hfinal : (sortParts (collectedParts env)).map Part.partNo =
      (List.range np).map fun i : Nat => (i : Int) + 1 := by
    refine List.eq_of_perm_of_sorted ?_ (sortParts_sorted _) ?_
    · exact ((sortParts_perm _).map _).trans hperm
    · rw [List.Sorted, List.pairwise_map]
      exact (List.pairwise_lt_range np).imp fun h => by omega
  intro payload hmem
  have hp : payload.parts = sortParts (collectedParts env) := by
    unfold uploadFile at hmem
    by_cases hopen : env.openFails
    · rw [if_pos hopen] at hmem
      cases hmem
    · rw [if_neg hopen] at hmem
      by_cases hread : env.readFirstFails
      · rw [if_pos hread] at hmem
        cases hmem
      · rw [if_neg hread] at hmem
        rw [if_neg (fun hne => hne hlen)] at hmem
        have hnotpart : Request.finalize payload ∉
            partRequests env fileName channelId fileSize partSize np := by
          intro hmem2
          rcases (mem_partRequests_iff env fileName channelId fileSize
            partSize np _).1 hmem2 with ⟨i, -, -, heq⟩
          cases heq
        by_cases hf : env.finalizeOk
        · by_cases hd : env.deleteOk
          · rw [if_pos hf, if_pos hd] at hmem
            rcases List.mem_append.mp hmem with h1 | h1
            · exact absurd h1 hnotpart
            · rcases List.mem_cons.mp h1 with h2 | h2
              · rw [Request.finalize.inj h2]
              · rcases List.mem_cons.mp h2 with h3 | h3
                · exact Request.noConfusion h3
                · exact absurd h3 (List.not_mem_nil _)
          · rw [if_pos hf, if_neg hd] at hmem
            rcases List.mem_append.mp hmem with h1 | h1
            · exact absurd h1 hnotpart
            · rcases List.mem_cons.mp h1 with h2 | h2
              · rw [Request.finalize.inj h2]
              · rcases List.mem_cons.mp h2 with h3 | h3
                · exact Request.noConfusion h3
                · exact absurd h3 (List.not_mem_nil _)
        · rw [if_neg hf] at hmem
          rcases List.mem_append.mp hmem with h1 | h1
          · exact absurd h1 hnotpart
          · rcases List.mem_cons.mp h1 with h2 | h2
            · rw [Request.finalize.inj h2]
            · exact absurd h2 (List.not_mem_nil _)
  rw [hp, hfinal]
  refine ⟨rfl, ?_, ?_, ?_⟩
  · rw [List.Sorted, List.pairwise_map]
    exact (List.pairwise_lt_range np).imp fun h => by omega
  · refine List.Nodup.map ?_ (List.nodup_range np)
    intro a b hab
    simpa using hab
  · intro k hk1 hk2
    refine List.mem_map.mpr ⟨(k - 1).toNat, List.mem_range.mpr ?_, ?_⟩ <;>
      omega

/-- Witness for `uploadFile_finalize_parts_sorted` on the concrete
2-part run with out-of-order channel arrival. -/
theorem uploadFile_finalize_parts_sorted_witness :
    payloadW.parts.map Part.partNo =
        (List.range (numParts 3 2)).map (fun i : Nat => (i : Int) + 1) ∧
      List.Sorted (· ≤ ·) (payloadW.parts.map Part.partNo) ∧
      (payloadW.parts.map Part.partNo).Nodup ∧
      ∀ k : Int, 1 ≤ k → k ≤ (numParts 3 2 : Int) →
        k ∈ payloadW.parts.map Part.partNo :=
  uploadFile_finalize_parts_sorted envAllOk "f.bin" "/d" 0 3 2
    (by unfold ArrivalOk; decide)
    (by
      intro i st out hi h
      simp only [envAllOk] at h
      rw [Except.ok.injEq, Prod.mk.injEq] at h
      obtain ⟨-, h2⟩ := h
      rw [← h2])
    (by decide)
    payloadW
    (by decide)

/-- C6: with a done (cancelled or deadline-exceeded) context the
classifier returns non-retryable with the context error, whatever the
response and error; with a live context it classifies as retryable
exactly the transient errors and the HTTP statuses 429, 500, 502, 503,
504 and 509, passing the error through. -/
theorem shouldRetry_classification (ctx : CtxState)
    (resp : Option HttpResponse) (err : Option GoErr) :
    (ctx ≠ .active → shouldRetry ctx resp err = (false, ctx.err)) ∧
    (ctx = .active →
      ((shouldRetry ctx resp err).1 = true ↔
        fserrShouldRetry err = true ∨
          ∃ r, resp = some r ∧
            r.statusCode ∈ [429, 500, 502, 503, 504, 509]) ∧
      (shouldRetry ctx resp err).2 = err) := by
  constructor
  · intro hctx
    cases ctx with
    | active => exact absurd rfl hctx
    | canceled => rfl
    | deadlineExceeded => rfl
  · intro hctx
    subst hctx
    constructor
    · show (fserrShouldRetry err || fserrShouldRetryHTTP resp retryErrorCodes) = true ↔ _
      rw [Bool.or_eq_true]
      constructor
      · rintro (h | h)
        · exact Or.inl h
        · cases resp with
          | none => exact absurd h (by rw [fserrShouldRetryHTTP]; simp)
          | some r =>
              exact Or.inr ⟨r, rfl, List.elem_iff.mp h⟩
      · rintro (h | ⟨r, rfl, h⟩)
        · exact Or.inl h
        · exact Or.inr (List.elem_iff.mpr h)
    · rfl

/-- Witness for `shouldRetry_classification`: a cancelled context is
fatal even on a retryable status, and a live context retries a 503. -/
theorem shouldRetry_classification_witness :
    shouldRetry .canceled (some ⟨503⟩) (some (.other true)) =
        (false, some GoErr.canceled) ∧
      (shouldRetry .active (some ⟨503⟩) none).1 = true :=
  ⟨(shouldRetry_classification .canceled (some ⟨503⟩)
      (some (.other true))).1 (by decide),
   ((shouldRetry_classification .active (some ⟨503⟩) none).2 rfl).1.mpr
      (Or.inr ⟨⟨503⟩, rfl, by decide⟩)⟩

/-- C5 counterexample: with `[dir "a", file "b.txt"]` and a failing
`makedir`, the run dies at `Error.Fatalln` — the process exits and the
sibling file `b.txt` is never uploaded nor even examined, contradicting
"walking continues with sibling entries". -/
theorem walk_mkdir_failure_skips_siblings :
    uploadFilesInDirectory envWalkMkdirFail 8 "src" "/d"
        [.dir "a" [], .file "b.txt"] =
      ([.listCall "/d", .mkdir "/d/a"], .exited) ∧
    WEvent.upload (joinPath "src" "b.txt") "/d" ∉
      (uploadFilesInDirectory envWalkMkdirFail 8 "src" "/d"
        [.dir "a" [], .file "b.txt"]).1 ∧
    WEvent.skipExists "b.txt" ∉
      (uploadFilesInDirectory envWalkMkdirFail 8 "src" "/d"
        [.dir "a" [], .file "b.txt"]).1 := by
  refine ⟨by decide, by decide, by decide⟩

/-- C5 (amended): a failure creating a remote subdirectory terminates
the whole process (`Error.Fatalln`), abandoning the subtree and every
remaining sibling; a failure of the recursive walk of a subdirectory
(unreadable local directory, failed remote listing) is only logged and
walking continues with the siblings; a file entry never stops the walk
(its upload error is only logged). -/
theorem walk_error_containment (env : WalkEnv)
    (recur : String → String → List FsEntry → List WEvent × WalkRes)
    (sourcePath destDir : String) (files : List FileInfo) :
    (∀ name children rest,
        env.mkdirOk (slashify (joinPath destDir name)) = false →
          walkEntries env recur sourcePath destDir files
              (.dir name children :: rest) =
            ([.mkdir (slashify (joinPath destDir name))], false)) ∧
    (∀ name children rest,
        env.mkdirOk (slashify (joinPath destDir name)) = true →
          (recur (joinPath sourcePath name)
              (slashify (joinPath destDir name)) children).2 ≠ .exited →
          walkEntries env recur sourcePath destDir files
              (.dir name children :: rest) =
            ((walkEntry env recur sourcePath destDir files
                (.dir name children)).1 ++
              (walkEntries env recur sourcePath destDir files rest).1,
              (walkEntries env recur sourcePath destDir files rest).2)) ∧
    (∀ name rest,
        walkEntries env recur sourcePath destDir files (.file name :: rest) =
          ((walkEntry env recur sourcePath destDir files (.file name)).1 ++
            (walkEntries env recur sourcePath destDir files rest).1,
            (walkEntries env recur sourcePath destDir files rest).2)) := by
  have hfilealive : ∀ name,
      (walkEntry env recur sourcePath destDir files (.file name)).2 = true := by
    intro name
    simp only [walkEntry]
    split <;> rfl
  refine ⟨?_, ?_, ?_⟩
  · intro name children rest h
    have hdead : walkEntry env recur sourcePath destDir files
        (.dir name children) = ([.mkdir (slashify (joinPath destDir name))],
          false) := by
      simp only [walkEntry]
      rw [if_neg (by rw [h]; exact Bool.false_ne_true)]
    simp only [walkEntries, hdead]
    rfl
  · intro name children rest h1 h2
    have halive : (walkEntry env recur sourcePath destDir files
        (.dir name children)).2 = true := by
      simp only [walkEntry]
      rw [if_pos h1]
    simp only [walkEntries]
    rw [if_pos halive]
  · intro name rest
    simp only [walkEntries]
    rw [if_pos (hfilealive name)]

/-- Witness for `walk_error_containment`: the failing-mkdir entry is the
whole result — the sibling list after it contributes nothing. -/
theorem walk_error_containment_witness :
    walkEntries envWalkMkdirFail (uploadFilesInDirectory envWalkMkdirFail 4)
        "src" "/d" [] [.dir "a" [], .file "b.txt"] =
      ([.mkdir (slashify (joinPath "/d" "a"))], false) :=
  (walk_error_containment envWalkMkdirFail
      (uploadFilesInDirectory envWalkMkdirFail 4) "src" "/d" []).1
    "a" [] [.file "b.txt"] rfl

/-- C7: a file entry whose name already appears in the remote listing of
its destination directory contributes exactly a skip event to the walk —
no upload request is issued for it.  The listing consulted is fetched
once per directory before the entry loop by `list`, which requests pages
of 500 and accumulates them until the next-page token is empty. -/
theorem walk_skips_existing_files :
    (∀ env recur sourcePath destDir files name (rest : List FsEntry),
        checkFileExists name files = true →
          walkEntry env recur sourcePath destDir files (.file name) =
              ([.skipExists name], true) ∧
            walkEntries env recur sourcePath destDir files
                (.file name :: rest) =
              (WEvent.skipExists name ::
                  (walkEntries env recur sourcePath destDir files rest).1,
                (walkEntries env recur sourcePath destDir files rest).2)) ∧
    (∀ env path f1,
        env.pages path 500 "" = some (f1, "") →
          ∀ fuel, listLoop env path (fuel + 1) "" [] = some f1) ∧
    (∀ env path f1 t1 f2,
        env.pages path 500 "" = some (f1, t1) → t1 ≠ "" →
          env.pages path 500 t1 = some (f2, "") →
          ∀ fuel, listLoop env path (fuel + 2) "" [] = some (f1 ++ f2)) ∧
    (∀ env fuel sourcePath destDir (entries : List FsEntry) files,
        env.readDirOk sourcePath = true →
          list env (slashify destDir) = some files →
          uploadFilesInDirectory env (fuel + 1) sourcePath destDir entries =
            (.listCall (slashify destDir) ::
                (walkEntries env (uploadFilesInDirectory env fuel)
                  sourcePath (slashify destDir) files entries).1,
              if (walkEntries env (uploadFilesInDirectory env fuel)
                  sourcePath (slashify destDir) files entries).2
              then WalkRes.ok else WalkRes.exited)) := by
  refine ⟨?_, ?_, ?_, ?_⟩
  · intro env recur sourcePath destDir files name rest h
    have hentry : walkEntry env recur sourcePath destDir files (.file name) =
        ([.skipExists name], true) := by
      simp only [walkEntry]
      rw [if_pos h]
    refine ⟨hentry, ?_⟩
    simp only [walkEntries, hentry]
    rfl
  · intro env path f1 h fuel
    simp [listLoop, readMetaDataForPath, h]
  · intro env path f1 t1 f2 h1 ht h2 fuel
    simp [listLoop, readMetaDataForPath, h1, ht, h2]
  · intro env fuel sourcePath destDir entries files hrd hlist
    simp only [uploadFilesInDirectory, hlist]
    rw [if_pos hrd]

/-- Witness for `walk_skips_existing_files`: a file named `b.txt` with a
remote entry `b.txt` in its directory is skipped, and the one-page
listing accumulates to that single entry. -/
theorem walk_skips_existing_files_witness :
    walkEntry envWalkExists (uploadFilesInDirectory envWalkExists 3) "src"
        "/d" [fileInfoB] (.file "b.txt") = ([.skipExists "b.txt"], true) ∧
      listLoop envWalkExists "/d" 4 "" [] = some [fileInfoB] :=
  ⟨(walk_skips_existing_files.1 envWalkExists
      (uploadFilesInDirectory envWalkExists 3) "src" "/d" [fileInfoB]
      "b.txt" [] (by decide)).1,
   walk_skips_existing_files.2.1 envWalkExists "/d" [fileInfoB] rfl 3⟩

end TeldriveUpload
